import Mathlib

/-!
# NotesApp: notes and todos kept in two JSON files

A shallow embedding of `main.go`: the package-level variables become a `State`
record, every button callback and selection handler becomes a function on that
record, and `loadData` / `saveData` act on an explicit `Disk`.

The program calls three pieces of the Go standard library whose code is not part
of the repository:

* `time.Time` with `Time.MarshalJSON` / `Time.UnmarshalJSON` is a parameter
  (`TimeLib`); what the proofs need from it is stated as `TimeLib.RoundTrips`.
* `encoding/json` is described on JSON trees (`JVal`), following its documented
  behaviour for slices of structs with field tags.
* `os.ReadFile` / `os.WriteFile` act on `Disk`.

The widgets and the display strings rebuilt by `refreshLists` carry no state that
the callbacks read back; only the text of the two entry widgets is kept.
-/

namespace NotesApp

/-! ## Data model -/

/-- The type `Note` of `main.go`, over the representation `Time` of `time.Time`. -/
structure Note (Time : Type) where
  content : String
  createdAt : Time
deriving DecidableEq, Repr

/-- The type `Todo` of `main.go`. -/
structure Todo (Time : Type) where
  task : String
  done : Bool
  createdAt : Time
deriving DecidableEq, Repr

/-! ## Standard library: time, JSON, files -/

/-- JSON values as `encoding/json` reads and writes them. White space, indentation
and string escapes belong to the text form and are not represented. -/
inductive JVal where
  | null
  | bool (b : Bool)
  | num (lit : String)
  | str (s : String)
  | arr (elems : List JVal)
  | obj (members : List (String × JVal))

/-- The part of package `time` the program relies on.
`marshalJSON t` is the text `Time.MarshalJSON` puts between the quotes (RFC 3339),
or its error. `unmarshalJSON v t` is `Time.UnmarshalJSON` run on the JSON value `v`
with receiver `t`: the new receiver and whether an error is returned. -/
structure TimeLib (Time : Type) where
  zero : Time
  marshalJSON : Time → Except String String
  unmarshalJSON : JVal → Time → Time × Bool

/-- The bytes of a file as `json.Unmarshal` sees them: either they pass its syntax
check and spell one JSON value, or they do not (an empty file is of the second kind). -/
inductive FileData where
  | invalid (raw : String)
  | json (v : JVal)

/-- Outcome of decoding one JSON value into a Go value: the value now stored,
whether an `UnmarshalTypeError` was recorded (decoding goes on), and whether an
`UnmarshalJSON` method failed (decoding stops at once). -/
structure Dec (α : Type) where
  val : α
  saved : Bool
  failed : Bool

/-- Case folding of one character of an object key, as far as it can reach an
ASCII letter: ASCII lower case, the long s and the Kelvin sign. -/
def foldChar (c : Char) : Char :=
  if c = '\u017f' then 'S'
  else if c = '\u212a' then 'K'
  else c.toUpper

/-- Whether the object key `key` selects the struct field tagged `name`:
`encoding/json` takes an exact match or else a case-insensitive one. -/
def fieldMatches (name key : String) : Bool :=
  key = name || key.data.map foldChar = name.data.map foldChar

/-- Decoding a JSON value into a Go `string` field. -/
def decodeString (v : JVal) (old : String) : Dec String :=
  match v with
  | .str s => ⟨s, false, false⟩
  | .null => ⟨old, false, false⟩
  | _ => ⟨old, true, false⟩

/-- Decoding a JSON value into a Go `bool` field. -/
def decodeBool (v : JVal) (old : Bool) : Dec Bool :=
  match v with
  | .bool b => ⟨b, false, false⟩
  | .null => ⟨old, false, false⟩
  | _ => ⟨old, true, false⟩

/-- Decoding a JSON value into a `time.Time` field, through `Time.UnmarshalJSON`. -/
def decodeTime {Time : Type} (tl : TimeLib Time) (v : JVal) (old : Time) : Dec Time :=
  ⟨(tl.unmarshalJSON v old).1, false, (tl.unmarshalJSON v old).2⟩

/-- One member `key: v` of a JSON object decoded into a `Note`. -/
def Note.decodeMember {Time : Type} (tl : TimeLib Time) (n : Note Time) (key : String)
    (v : JVal) : Dec (Note Time) :=
  if fieldMatches "content" key then
    let r := decodeString v n.content
    ⟨{ n with content := r.val }, r.saved, r.failed⟩
  else if fieldMatches "created_at" key then
    let r := decodeTime tl v n.createdAt
    ⟨{ n with createdAt := r.val }, r.saved, r.failed⟩
  else ⟨n, false, false⟩

/-- One member `key: v` of a JSON object decoded into a `Todo`. -/
def Todo.decodeMember {Time : Type} (tl : TimeLib Time) (t : Todo Time) (key : String)
    (v : JVal) : Dec (Todo Time) :=
  if fieldMatches "task" key then
    let r := decodeString v t.task
    ⟨{ t with task := r.val }, r.saved, r.failed⟩
  else if fieldMatches "done" key then
    let r := decodeBool v t.done
    ⟨{ t with done := r.val }, r.saved, r.failed⟩
  else if fieldMatches "created_at" key then
    let r := decodeTime tl v t.createdAt
    ⟨{ t with createdAt := r.val }, r.saved, r.failed⟩
  else ⟨t, false, false⟩

/-- The members of a JSON object decoded in order into a struct; a failed
`UnmarshalJSON` stops the loop, a recorded type error does not. -/
def decodeMembers {α : Type} (member : α → String → JVal → Dec α) :
    List (String × JVal) → α → Bool → Dec α
  | [], x, saved => ⟨x, saved, false⟩
  | (k, v) :: rest, x, saved =>
    let r := member x k v
    if r.failed then ⟨r.val, saved || r.saved, true⟩
    else decodeMembers member rest r.val (saved || r.saved)

/-- A JSON value decoded into a struct: an object is decoded member by member,
`null` leaves the struct as it is, anything else is a recorded type error. -/
def decodeStruct {α : Type} (member : α → String → JVal → Dec α) (v : JVal) (old : α) : Dec α :=
  match v with
  | .obj members => decodeMembers member members old false
  | .null => ⟨old, false, false⟩
  | _ => ⟨old, true, false⟩

/-- What reflection finds for an element type: its zero value and how one
element is written and read. -/
structure JsonType (α : Type) where
  zero : α
  encode : α → Except String JVal
  decode : JVal → α → Dec α

/-- The element loop of the slice decoder. `stored` holds the elements decoded so
far, `old` what is left of the previous elements of the slice. Each JSON element is
decoded into the previous element at its index when there is one and into a zero
value otherwise; the slice already has the element when decoding it starts, so a
failure leaves it in place, together with the untouched rest. -/
def decodeElems {α : Type} (ty : JsonType α) :
    List JVal → List α → List α → Bool → List α × Bool × Bool
  | [], stored, _, saved => (stored, saved, false)
  | e :: rest, stored, old, saved =>
    let r := ty.decode e (old.headD ty.zero)
    if r.failed then (stored ++ r.val :: old.tail, saved || r.saved, true)
    else decodeElems ty rest (stored ++ [r.val]) old.tail (saved || r.saved)

/-- The call `json.Unmarshal(file, data)` for `data` a pointer to a slice: the new
value of the slice and whether an error is returned. Bytes that fail the syntax
check leave the slice alone, `null` empties it, an array is decoded element by
element, any other value is a type error that leaves the slice alone. A nil slice
and an empty slice are both the empty list. -/
def unmarshal {α : Type} (ty : JsonType α) (file : FileData) (data : List α) : List α × Bool :=
  match file with
  | .invalid _ => (data, true)
  | .json .null => ([], false)
  | .json (.arr elems) =>
    let r := decodeElems ty elems [] data false
    (r.1, r.2.1 || r.2.2)
  | .json _ => (data, true)

/-- Elements written in order; the first error ends the encoding. -/
def encodeElems {α : Type} (ty : JsonType α) : List α → Except String (List JVal)
  | [] => .ok []
  | x :: rest =>
    match ty.encode x with
    | .error e => .error e
    | .ok v =>
      match encodeElems ty rest with
      | .error e => .error e
      | .ok vs => .ok (v :: vs)

/-- The call `json.MarshalIndent(data, "", "  ")` for `data` a slice: an array of
the encoded elements, or the first encoding error. Go writes `null` for a nil slice,
which `unmarshal` reads back as the empty collection; the list model has one empty
collection and writes the empty array for it. -/
def marshalIndent {α : Type} (ty : JsonType α) (data : List α) : Except String FileData :=
  match encodeElems ty data with
  | .error e => .error e
  | .ok vs => .ok (.json (.arr vs))

/-- A `Note` written as an object, fields in declaration order. -/
def Note.encode {Time : Type} (tl : TimeLib Time) (n : Note Time) : Except String JVal :=
  match tl.marshalJSON n.createdAt with
  | .error e => .error e
  | .ok t => .ok (.obj [("content", .str n.content), ("created_at", .str t)])

/-- A `Todo` written as an object, fields in declaration order. -/
def Todo.encode {Time : Type} (tl : TimeLib Time) (t : Todo Time) : Except String JVal :=
  match tl.marshalJSON t.createdAt with
  | .error e => .error e
  | .ok c => .ok (.obj [("task", .str t.task), ("done", .bool t.done), ("created_at", .str c)])

/-- Reflection data of `Note`. -/
def noteType {Time : Type} (tl : TimeLib Time) : JsonType (Note Time) where
  zero := ⟨"", tl.zero⟩
  encode := Note.encode tl
  decode := decodeStruct (Note.decodeMember tl)

/-- Reflection data of `Todo`. -/
def todoType {Time : Type} (tl : TimeLib Time) : JsonType (Todo Time) where
  zero := ⟨"", false, tl.zero⟩
  encode := Todo.encode tl
  decode := decodeStruct (Todo.decodeMember tl)

/-- The files of the working directory: the content of each path that can be read,
and the paths that cannot be written. -/
structure Disk where
  files : String → Option FileData
  locked : String → Bool

/-- The call `os.ReadFile(filename)`; `none` is a non-nil error. -/
def readFile (d : Disk) (filename : String) : Option FileData :=
  d.files filename

/-- The call `os.WriteFile(filename, file, 0644)`: the disk afterwards and whether
an error is returned. -/
def writeFile (d : Disk) (filename : String) (file : FileData) : Disk × Bool :=
  if d.locked filename then (d, true)
  else ({ d with files := Function.update d.files filename (some file) }, false)

/-! ## Program state -/

/-- The package-level variables of `main.go`, the text of the two entry widgets,
and the disk. -/
structure State (Time : Type) where
  notes : List (Note Time)
  todos : List (Todo Time)
  currentNote : Int
  currentTodo : Int
  noteInput : String
  todoInput : String
  disk : Disk

/-- The variable `noteFile`. -/
def noteFile : String := "notes.json"

/-- The variable `todoFile`. -/
def todoFile : String := "todos.json"

/-- The function `loadFromFile`: a read error returns at once, and the error of
`json.Unmarshal` is dropped. -/
def loadFromFile {α : Type} (ty : JsonType α) (d : Disk) (filename : String)
    (data : List α) : List α :=
  match readFile d filename with
  | none => data
  | some file => (unmarshal ty file data).1

/-- The function `loadData`. -/
def loadData {Time : Type} (tl : TimeLib Time) (s : State Time) : State Time :=
  let s1 := { s with notes := loadFromFile (noteType tl) s.disk noteFile s.notes }
  { s1 with todos := loadFromFile (todoType tl) s1.disk todoFile s1.todos }

/-- The function `saveToFile`: both errors are printed and otherwise dropped. -/
def saveToFile {α : Type} (ty : JsonType α) (d : Disk) (filename : String)
    (data : List α) : Disk :=
  match marshalIndent ty data with
  | .error _ => d
  | .ok file => (writeFile d filename file).1

/-- The function `saveData`. -/
def saveData {Time : Type} (tl : TimeLib Time) (s : State Time) : State Time :=
  let s1 := { s with disk := saveToFile (noteType tl) s.disk noteFile s.notes }
  { s1 with disk := saveToFile (todoType tl) s1.disk todoFile s1.todos }

/-- The state of a process right after the variable declarations, on disk `d`. -/
def fresh {Time : Type} (d : Disk) : State Time :=
  { notes := [], todos := [], currentNote := -1, currentTodo := -1,
    noteInput := "", todoInput := "", disk := d }

/-- The state when the window opens: `main` starts with `loadData()`. -/
def start {Time : Type} (tl : TimeLib Time) (d : Disk) : State Time :=
  loadData tl (fresh d)

/-- The expression `append(xs[:i], xs[i+1:]...)`; `none` is the run-time panic of
a slice bound out of range, raised exactly when `i + 1 > len(xs)`. -/
def cut {α : Type} (xs : List α) (i : Nat) : Option (List α) :=
  if i + 1 ≤ xs.length then some (xs.take i ++ xs.drop (i + 1)) else none

/-! ## Callbacks. `none` is a run-time panic. -/

/-- The callback of "Add Note"; `now` is the value of `time.Now()`. -/
def addNote {Time : Type} (tl : TimeLib Time) (now : Time) (s : State Time) : Option (State Time) :=
  if s.noteInput ≠ "" then
    some (saveData tl { s with notes := s.notes ++ [⟨s.noteInput, now⟩], noteInput := "" })
  else some s

/-- The callback of "Edit Note". -/
def editNote {Time : Type} (s : State Time) : Option (State Time) :=
  if s.currentNote ≥ 0 then
    match s.notes[s.currentNote.toNat]? with
    | none => none
    | some n =>
      match cut s.notes s.currentNote.toNat with
      | none => none
      | some rest => some { s with noteInput := n.content, notes := rest, currentNote := -1 }
  else some s

/-- The callback of "Delete Note". -/
def deleteNote {Time : Type} (tl : TimeLib Time) (s : State Time) : Option (State Time) :=
  if s.currentNote ≥ 0 then
    match cut s.notes s.currentNote.toNat with
    | none => none
    | some rest => some (saveData tl { s with notes := rest, currentNote := -1 })
  else some s

/-- The callback of "Clear Notes". -/
def clearNotes {Time : Type} (tl : TimeLib Time) (s : State Time) : Option (State Time) :=
  some (saveData tl { s with notes := [] })

/-- The callback of "Add Todo"; `Done` is left at its zero value. -/
def addTodo {Time : Type} (tl : TimeLib Time) (now : Time) (s : State Time) : Option (State Time) :=
  if s.todoInput ≠ "" then
    some (saveData tl { s with todos := s.todos ++ [⟨s.todoInput, false, now⟩], todoInput := "" })
  else some s

/-- The callback of "Toggle Done". -/
def toggleDone {Time : Type} (tl : TimeLib Time) (s : State Time) : Option (State Time) :=
  if s.currentTodo ≥ 0 then
    match s.todos[s.currentTodo.toNat]? with
    | none => none
    | some t =>
      some (saveData tl { s with todos := s.todos.set s.currentTodo.toNat { t with done := !t.done } })
  else some s

/-- The callback of "Delete Todo". -/
def deleteTodo {Time : Type} (tl : TimeLib Time) (s : State Time) : Option (State Time) :=
  if s.currentTodo ≥ 0 then
    match cut s.todos s.currentTodo.toNat with
    | none => none
    | some rest => some (saveData tl { s with todos := rest, currentTodo := -1 })
  else some s

/-- The callback of "Clear Todos". -/
def clearTodos {Time : Type} (tl : TimeLib Time) (s : State Time) : Option (State Time) :=
  some (saveData tl { s with todos := [] })

/-- The handler `notesWidget.OnSelected`. -/
def selectNote {Time : Type} (id : Int) (s : State Time) : Option (State Time) :=
  some { s with currentNote := id, currentTodo := -1 }

/-- The handler `todosWidget.OnSelected`. -/
def selectTodo {Time : Type} (id : Int) (s : State Time) : Option (State Time) :=
  some { s with currentTodo := id, currentNote := -1 }

/-- What the user can do to the window. -/
inductive Action (Time : Type) where
  | addNote (now : Time)
  | editNote
  | deleteNote
  | clearNotes
  | addTodo (now : Time)
  | toggleDone
  | deleteTodo
  | clearTodos
  | selectNote (id : Int)
  | selectTodo (id : Int)
  | typeNote (text : String)
  | typeTodo (text : String)
  | keyS

/-- One user action dispatched to its callback. Typing replaces the text of an
entry widget; the key S runs `saveData`. -/
def step {Time : Type} (tl : TimeLib Time) (a : Action Time) (s : State Time) :
    Option (State Time) :=
  match a with
  | .addNote now => addNote tl now s
  | .editNote => editNote s
  | .deleteNote => deleteNote tl s
  | .clearNotes => clearNotes tl s
  | .addTodo now => addTodo tl now s
  | .toggleDone => toggleDone tl s
  | .deleteTodo => deleteTodo tl s
  | .clearTodos => clearTodos tl s
  | .selectNote id => selectNote id s
  | .selectTodo id => selectTodo id s
  | .typeNote text => some { s with noteInput := text }
  | .typeTodo text => some { s with todoInput := text }
  | .keyS => some (saveData tl s)

/-- A sequence of actions run from `s`; a panic ends the process. -/
def run {Time : Type} (tl : TimeLib Time) : List (Action Time) → State Time → Option (State Time)
  | [], s => some s
  | a :: rest, s =>
    match step tl a s with
    | none => none
    | some s1 => run tl rest s1

/-! ## Properties stated over the state -/

/-- At most one of the two lists has a selection, and the list without one holds
the constant `-1`. -/
def Exclusive {Time : Type} (s : State Time) : Prop :=
  (0 ≤ s.currentNote → s.currentTodo = -1) ∧ (0 ≤ s.currentTodo → s.currentNote = -1)

/-- A selection, when there is one, is an index of its collection. -/
def SelectionValid {Time : Type} (s : State Time) : Prop :=
  (0 ≤ s.currentNote → s.currentNote < s.notes.length) ∧
  (0 ≤ s.currentTodo → s.currentTodo < s.todos.length)

/-- The list widgets report only rows they show: a selection event carries an
index of the collection as it is at that time. Buttons and keys are always there. -/
def Offered {Time : Type} (a : Action Time) (s : State Time) : Prop :=
  match a with
  | .selectNote id => 0 ≤ id ∧ id < s.notes.length
  | .selectTodo id => 0 ≤ id ∧ id < s.todos.length
  | _ => True

/-- Both files on disk hold the serialization of the collections in memory. -/
def Flushed {Time : Type} (tl : TimeLib Time) (s : State Time) : Prop :=
  (∃ f, marshalIndent (noteType tl) s.notes = .ok f ∧ readFile s.disk noteFile = some f) ∧
  (∃ f, marshalIndent (todoType tl) s.todos = .ok f ∧ readFile s.disk todoFile = some f)

/-- Contract of `Time.MarshalJSON` and `Time.UnmarshalJSON`: the text written for a
time is read back without error, whatever the receiver held, as a time that is
written as the same text. -/
def TimeLib.RoundTrips {Time : Type} (tl : TimeLib Time) : Prop :=
  ∀ (t : Time) (text : String), tl.marshalJSON t = .ok text →
    ∀ old : Time, (tl.unmarshalJSON (.str text) old).2 = false ∧
      tl.marshalJSON (tl.unmarshalJSON (.str text) old).1 = .ok text

/-- Two notes with the same content whose timestamps are written alike, that is,
equal up to what the serialized form keeps of a timestamp. -/
def Note.SameSaved {Time : Type} (tl : TimeLib Time) (a b : Note Time) : Prop :=
  b.content = a.content ∧ tl.marshalJSON b.createdAt = tl.marshalJSON a.createdAt

/-- Two todos with the same task and flag whose timestamps are written alike. -/
def Todo.SameSaved {Time : Type} (tl : TimeLib Time) (a b : Todo Time) : Prop :=
  b.task = a.task ∧ b.done = a.done ∧ tl.marshalJSON b.createdAt = tl.marshalJSON a.createdAt

/-- A file that is absent, or present with no bytes in it. -/
def EmptyFile (d : Disk) (filename : String) : Prop :=
  d.files filename = none ∨ d.files filename = some (.invalid "")

/-! ## Concrete instances used for evaluation -/

/-- Timestamps held as the RFC 3339 text they are written as; any string literal
is taken for a timestamp. -/
def textTime : TimeLib String where
  zero := "0001-01-01T00:00:00Z"
  marshalJSON := fun t => .ok t
  unmarshalJSON := fun v t =>
    match v with
    | .str s => (s, false)
    | .null => (t, false)
    | _ => (t, true)

/-- The file cannot be read, or its bytes are not valid JSON, or they spell a JSON
value that is not an array. -/
def Unusable (d : Disk) (filename : String) : Prop :=
  d.files filename = none ∨ (∃ raw, d.files filename = some (.invalid raw)) ∨
    (∃ v, d.files filename = some (.json v) ∧ ∀ elems, v ≠ .arr elems)

/-- Every timestamp held in memory can be written by `Time.MarshalJSON`. -/
def Writable {Time : Type} (tl : TimeLib Time) (s : State Time) : Prop :=
  (∀ n ∈ s.notes, ∃ text, tl.marshalJSON n.createdAt = .ok text) ∧
  (∀ t ∈ s.todos, ∃ text, tl.marshalJSON t.createdAt = .ok text)

/-- Neither of the two files is protected against writing. -/
def Unlocked (d : Disk) : Prop :=
  d.locked noteFile = false ∧ d.locked todoFile = false

/-- A working directory with no files, all paths writable. -/
def emptyDisk : Disk := ⟨fun _ => none, fun _ => false⟩

/-- A working directory whose only file is `notes.json` with content `file`. -/
def diskWithNotes (file : FileData) : Disk :=
  ⟨fun name => if name = noteFile then some file else none, fun _ => false⟩

/-- A moment in time, as text. -/
def morning : String := "2024-05-01T10:00:00Z"

/-- A later moment, as text. -/
def evening : String := "2024-05-01T19:30:00Z"

/-- A session in progress: two notes, two todos, the second todo selected. -/
def sample : State String :=
  { notes := [⟨"buy milk", morning⟩, ⟨"call home", evening⟩],
    todos := [⟨"water plants", false, morning⟩, ⟨"pay rent", true, evening⟩],
    currentNote := -1, currentTodo := 1,
    noteInput := "draft", todoInput := "next", disk := emptyDisk }

/-- The same session with the second note selected instead. -/
def sampleNote : State String :=
  { sample with currentNote := 1, currentTodo := -1 }

/-- The sample session with text in the note entry and none in the todo entry. -/
def noteTyped : State String :=
  { sample with todoInput := "" }

/-- The sample session with text in the todo entry and none in the note entry. -/
def todoTyped : State String :=
  { sample with noteInput := "" }

/-- A user adds a note and selects it. -/
def addAndSelect : List (Action String) :=
  [.typeNote "buy milk", .addNote morning, .selectNote 0]

/-- A user adds a note. -/
def addOne : List (Action String) :=
  [.typeNote "buy milk", .addNote morning]

/-- A user adds a todo. -/
def addOneTodo : List (Action String) :=
  [.typeTodo "pay rent", .addTodo morning]

/-- The state after `addOne` in a directory without files. -/
def afterAdd : State String :=
  (run textTime addOne (start textTime emptyDisk)).getD (fresh emptyDisk)

/-- The state after `addAndSelect` in a directory without files. -/
def afterSelect : State String :=
  (run textTime addAndSelect (start textTime emptyDisk)).getD (fresh emptyDisk)

/-- The state after adding a note, selecting it and pressing "Clear Notes". -/
def afterClear : State String :=
  (run textTime [.selectNote 0, .clearNotes] afterAdd).getD (fresh emptyDisk)

/-- The state after `addOneTodo` in a directory without files. -/
def afterAddTodo : State String :=
  (run textTime addOneTodo (start textTime emptyDisk)).getD (fresh emptyDisk)

/-- The state after adding a todo, selecting it and pressing "Clear Todos". -/
def afterClearTodos : State String :=
  (run textTime [.selectTodo 0, .clearTodos] afterAddTodo).getD (fresh emptyDisk)

/-- A notes file holding a JSON array of one object whose only member has the key
content and the number 5 as value: a number where a note has its text. -/
def illTypedNotes : FileData :=
  .json (.arr [.obj [("content", .num "5")]])

/-! ## Basic facts -/

section Basic

variable {Time : Type} (tl : TimeLib Time)

@[simp] theorem saveData_notes (s : State Time) : (saveData tl s).notes = s.notes := rfl

@[simp] theorem saveData_todos (s : State Time) : (saveData tl s).todos = s.todos := rfl

@[simp] theorem saveData_currentNote (s : State Time) :
    (saveData tl s).currentNote = s.currentNote := rfl

@[simp] theorem saveData_currentTodo (s : State Time) :
    (saveData tl s).currentTodo = s.currentTodo := rfl

@[simp] theorem saveData_noteInput (s : State Time) :
    (saveData tl s).noteInput = s.noteInput := rfl

@[simp] theorem saveData_todoInput (s : State Time) :
    (saveData tl s).todoInput = s.todoInput := rfl

theorem cut_of_lt {α : Type} (xs : List α) (i : Nat) (h : i < xs.length) :
    cut xs i = some (xs.eraseIdx i) := by
  have h1 : i + 1 ≤ xs.length := h
  simp [cut, h1, List.eraseIdx_eq_take_drop_succ]

theorem cut_of_ge {α : Type} (xs : List α) (i : Nat) (h : xs.length ≤ i) :
    cut xs i = none := by
  have h1 : ¬ (i + 1 ≤ xs.length) := by omega
  simp [cut, h1]

theorem eraseIdx_length_append {α : Type} (xs : List α) (x : α) :
    (xs ++ [x]).eraseIdx xs.length = xs := by
  rw [List.eraseIdx_append_of_length_le (Nat.le_refl _)]
  simp

theorem step_exclusive (a : Action Time) (s s1 : State Time) (h : Exclusive s)
    (hs : step tl a s = some s1) : Exclusive s1 := by
  obtain ⟨hn, ht⟩ := h
  cases a <;> simp only [step, addNote, editNote, deleteNote, clearNotes, addTodo, toggleDone,
    deleteTodo, clearTodos, selectNote, selectTodo] at hs
  case addNote now =>
    split at hs <;> cases hs <;> exact ⟨hn, ht⟩
  case editNote =>
    split at hs
    · split at hs
      · cases hs
      · split at hs
        · cases hs
        · cases hs
          refine ⟨fun h0 => absurd h0 (show ¬ (0 : Int) ≤ -1 by decide), fun _ => rfl⟩
    · cases hs; exact ⟨hn, ht⟩
  case deleteNote =>
    split at hs
    · split at hs
      · cases hs
      · cases hs
        refine ⟨fun h0 => absurd h0 (show ¬ (0 : Int) ≤ -1 by decide), fun _ => rfl⟩
    · cases hs; exact ⟨hn, ht⟩
  case clearNotes => cases hs; exact ⟨hn, ht⟩
  case addTodo now =>
    split at hs <;> cases hs <;> exact ⟨hn, ht⟩
  case toggleDone =>
    split at hs
    · split at hs
      · cases hs
      · cases hs; exact ⟨hn, ht⟩
    · cases hs; exact ⟨hn, ht⟩
  case deleteTodo =>
    split at hs
    · split at hs
      · cases hs
      · cases hs
        refine ⟨fun _ => rfl, fun h0 => absurd h0 (show ¬ (0 : Int) ≤ -1 by decide)⟩
    · cases hs; exact ⟨hn, ht⟩
  case clearTodos => cases hs; exact ⟨hn, ht⟩
  case selectNote id =>
    cases hs
    refine ⟨fun _ => rfl, fun h0 => absurd h0 (show ¬ (0 : Int) ≤ -1 by decide)⟩
  case selectTodo id =>
    cases hs
    refine ⟨fun h0 => absurd h0 (show ¬ (0 : Int) ≤ -1 by decide), fun _ => rfl⟩
  case typeNote text => cases hs; exact ⟨hn, ht⟩
  case typeTodo text => cases hs; exact ⟨hn, ht⟩
  case keyS => cases hs; exact ⟨hn, ht⟩

theorem run_exclusive (acts : List (Action Time)) (s s1 : State Time) (h : Exclusive s)
    (hs : run tl acts s = some s1) : Exclusive s1 := by
  induction acts generalizing s with
  | nil =>
    simp only [run] at hs
    cases hs
    exact h
  | cons a rest ih =>
    simp only [run] at hs
    cases hstep : step tl a s with
    | none => rw [hstep] at hs; cases hs
    | some s2 =>
      rw [hstep] at hs
      exact ih s2 (step_exclusive tl a s s2 h hstep) hs

end Basic

/-! ## Selection -/

section Selection

variable {Time : Type} (tl : TimeLib Time)

/-- C5. From a state with `currentNote = currentTodo = -1`, after any sequence of
actions (selections of any index, buttons, typing, the save key) that runs without
a panic, the two selections are never both non-negative; selecting note `i` sets
`currentNote = i` and `currentTodo = -1`, and selecting todo `j` sets
`currentTodo = j` and `currentNote = -1`. -/
theorem selection_exclusive (acts : List (Action Time)) (s0 s : State Time)
    (hn : s0.currentNote = -1) (ht : s0.currentTodo = -1) (hr : run tl acts s0 = some s) :
    ¬ (0 ≤ s.currentNote ∧ 0 ≤ s.currentTodo) ∧
    (∀ i : Int, (step tl (.selectNote i) s).map (fun r => (r.currentNote, r.currentTodo))
      = some (i, -1)) ∧
    (∀ j : Int, (step tl (.selectTodo j) s).map (fun r => (r.currentTodo, r.currentNote))
      = some (j, -1)) := by
  have h0 : Exclusive s0 := ⟨fun _ => ht, fun _ => hn⟩
  obtain ⟨h1, _⟩ := run_exclusive tl acts s0 s h0 hr
  refine ⟨?_, fun i => rfl, fun j => rfl⟩
  rintro ⟨ha, hb⟩
  rw [h1 ha] at hb
  exact absurd hb (by decide)

/-- C8. In a state reached from one with no selection, with note `i` selected and
`notes[i] = n`, "Edit Note" puts `n.content` into the note entry, removes exactly
element `i` from the notes, leaves the todos alone and ends with
`currentNote = currentTodo = -1`; with `currentNote < 0` it changes nothing. -/
theorem editNote_transition :
    (∀ (acts : List (Action Time)) (s0 s : State Time) (i : Nat) (n : Note Time),
      s0.currentNote = -1 → s0.currentTodo = -1 → run tl acts s0 = some s →
      s.currentNote = i → s.notes[i]? = some n →
      (editNote s).map (fun r => (r.noteInput, r.notes, r.todos, r.currentNote, r.currentTodo))
        = some (n.content, s.notes.eraseIdx i, s.todos, -1, -1)) ∧
    (∀ s : State Time, s.currentNote < 0 → editNote s = some s) := by
  constructor
  · intro acts s0 s i n hn ht hr hi hget
    have h0 : Exclusive s0 := ⟨fun _ => ht, fun _ => hn⟩
    obtain ⟨h1, _⟩ := run_exclusive tl acts s0 s h0 hr
    have hnonneg : 0 ≤ s.currentNote := by rw [hi]; exact Int.ofNat_nonneg i
    have hlt : i < s.notes.length := by
      rcases Nat.lt_or_ge i s.notes.length with h | h
      · exact h
      · rw [List.getElem?_eq_none h] at hget; cases hget
    have hnat : s.currentNote.toNat = i := by rw [hi]; exact Int.toNat_ofNat i
    simp [editNote, hnonneg, hnat, hget, cut_of_lt _ _ hlt, h1 hnonneg]
  · intro s hneg
    have h : ¬ (s.currentNote ≥ 0) := by omega
    simp [editNote, h]

end Selection

/-! ## Adding, deleting, toggling -/

section Collections

variable {Time : Type} (tl : TimeLib Time)

/-- C3 (amended). "Add Note" and "Add Todo" do nothing to their collection when the
entry text is the empty string, and append exactly one element, carrying the text
as typed, for every other text, blank ones included. -/
theorem add_rejects_only_empty (now : Time) (s : State Time) :
    (addNote tl now s).map (fun r => r.notes)
      = some (if s.noteInput = "" then s.notes else s.notes ++ [⟨s.noteInput, now⟩]) ∧
    (addTodo tl now s).map (fun r => r.todos)
      = some (if s.todoInput = "" then s.todos else s.todos ++ [⟨s.todoInput, false, now⟩]) ∧
    (addNote tl now s).map (fun r => r.notes.length)
      = some (if s.noteInput = "" then s.notes.length else s.notes.length + 1) ∧
    (addTodo tl now s).map (fun r => r.todos.length)
      = some (if s.todoInput = "" then s.todos.length else s.todos.length + 1) := by
  refine ⟨?_, ?_, ?_, ?_⟩
  · by_cases h : s.noteInput = "" <;> simp [addNote, h]
  · by_cases h : s.todoInput = "" <;> simp [addTodo, h]
  · by_cases h : s.noteInput = "" <;> simp [addNote, h]
  · by_cases h : s.todoInput = "" <;> simp [addTodo, h]

/-- C6. With element `i` selected, "Delete Note" (and likewise "Delete Todo")
leaves a collection one shorter that agrees with the old one below `i` and holds
the old element `k + 1` at every position `k` from `i` on. Adding two todos,
toggling the first and deleting the second leaves the first one alone, done. -/
theorem delete_removes_selected :
    (∀ (s : State Time) (i : Nat), s.currentNote = i → i < s.notes.length →
      ∃ s1, deleteNote tl s = some s1 ∧ s1.notes.length = s.notes.length - 1 ∧
        (∀ k, k < i → s1.notes[k]? = s.notes[k]?) ∧
        (∀ k, i ≤ k → s1.notes[k]? = s.notes[k + 1]?)) ∧
    (∀ (s : State Time) (j : Nat), s.currentTodo = j → j < s.todos.length →
      ∃ s1, deleteTodo tl s = some s1 ∧ s1.todos.length = s.todos.length - 1 ∧
        (∀ k, k < j → s1.todos[k]? = s.todos[k]?) ∧
        (∀ k, j ≤ k → s1.todos[k]? = s.todos[k + 1]?)) ∧
    (∀ (s : State Time) (t1 t2 : String) (now1 now2 : Time),
      s.todos = [] → t1 ≠ "" → t2 ≠ "" →
      (run tl [.typeTodo t1, .addTodo now1, .typeTodo t2, .addTodo now2,
        .selectTodo 0, .toggleDone, .selectTodo 1, .deleteTodo] s).map (fun r => r.todos)
        = some [⟨t1, true, now1⟩]) := by
  refine ⟨?_, ?_, ?_⟩
  · intro s i hi hlt
    have hnonneg : s.currentNote ≥ 0 := by rw [hi]; exact Int.ofNat_nonneg i
    have hnat : s.currentNote.toNat = i := by rw [hi]; exact Int.toNat_ofNat i
    refine ⟨saveData tl { s with notes := s.notes.eraseIdx i, currentNote := -1 }, ?_, ?_, ?_, ?_⟩
    · simp [deleteNote, hnonneg, hnat, cut_of_lt _ _ hlt]
    · simp [List.length_eraseIdx, hlt]
    · intro k hk
      simp [List.getElem?_eraseIdx, hk]
    · intro k hk
      have : ¬ k < i := by omega
      simp [List.getElem?_eraseIdx, this]
  · intro s j hj hlt
    have hnonneg : s.currentTodo ≥ 0 := by rw [hj]; exact Int.ofNat_nonneg j
    have hnat : s.currentTodo.toNat = j := by rw [hj]; exact Int.toNat_ofNat j
    refine ⟨saveData tl { s with todos := s.todos.eraseIdx j, currentTodo := -1 }, ?_, ?_, ?_, ?_⟩
    · simp [deleteTodo, hnonneg, hnat, cut_of_lt _ _ hlt]
    · simp [List.length_eraseIdx, hlt]
    · intro k hk
      simp [List.getElem?_eraseIdx, hk]
    · intro k hk
      have : ¬ k < j := by omega
      simp [List.getElem?_eraseIdx, this]
  · intro s t1 t2 now1 now2 hs h1 h2
    simp [run, step, addTodo, selectTodo, toggleDone, deleteTodo, cut, hs, h1, h2]

/-- C9. In every state whose note entry holds a non-empty text, whatever the todo
entry holds, "Add Note" appends the new note at the end, and selecting it (index
`len(c)`) and pressing "Delete Note" gives back the collection `c` as it was. In
every state whose todo entry holds a non-empty text, whatever the note entry holds,
"Add Todo" appends the new todo at the end with `done = false`, and selecting it
and pressing "Delete Todo" gives back the todos as they were. -/
theorem add_then_remove :
    (∀ (now : Time) (s : State Time), s.noteInput ≠ "" →
      (addNote tl now s).map (fun r => r.notes) = some (s.notes ++ [⟨s.noteInput, now⟩]) ∧
      (run tl [.addNote now, .selectNote s.notes.length, .deleteNote] s).map (fun r => r.notes)
        = some s.notes) ∧
    (∀ (now : Time) (s : State Time), s.todoInput ≠ "" →
      (addTodo tl now s).map (fun r => r.todos)
        = some (s.todos ++ [⟨s.todoInput, false, now⟩]) ∧
      (run tl [.addTodo now, .selectTodo s.todos.length, .deleteTodo] s).map (fun r => r.todos)
        = some s.todos) := by
  constructor
  · intro now s hn
    constructor
    · simp [addNote, hn]
    · have hlt : s.notes.length < (s.notes ++ [(⟨s.noteInput, now⟩ : Note Time)]).length := by
        simp
      simp [run, step, addNote, selectNote, deleteNote, hn, cut_of_lt _ _ hlt,
        eraseIdx_length_append]
  · intro now s ht
    constructor
    · simp [addTodo, ht]
    · have hlt : s.todos.length < (s.todos ++ [(⟨s.todoInput, false, now⟩ : Todo Time)]).length := by
        simp
      simp [run, step, addTodo, selectTodo, deleteTodo, ht, cut_of_lt _ _ hlt,
        eraseIdx_length_append]

/-- C10. With todo `j` selected and `todos[j] = t`, "Toggle Done" replaces element
`j` by `t` with `done` negated and changes no other todo, no note and neither
selection; a second "Toggle Done" gives back the todos exactly as they were. -/
theorem toggle_involution (s : State Time) (j : Nat) (t : Todo Time)
    (hj : s.currentTodo = j) (hget : s.todos[j]? = some t) :
    (toggleDone tl s).map (fun r => (r.todos, r.notes, r.currentNote, r.currentTodo))
      = some (s.todos.set j ⟨t.task, !t.done, t.createdAt⟩, s.notes, s.currentNote,
          s.currentTodo) ∧
    (∀ k, k ≠ j → (s.todos.set j ⟨t.task, !t.done, t.createdAt⟩)[k]? = s.todos[k]?) ∧
    ((toggleDone tl s).bind (toggleDone tl)).map (fun r => r.todos) = some s.todos := by
  have hnonneg : s.currentTodo ≥ 0 := by rw [hj]; exact Int.ofNat_nonneg j
  have hnat : s.currentTodo.toNat = j := by rw [hj]; exact Int.toNat_ofNat j
  have hlt : j < s.todos.length := by
    rcases Nat.lt_or_ge j s.todos.length with h | h
    · exact h
    · rw [List.getElem?_eq_none h] at hget; cases hget
  refine ⟨?_, ?_, ?_⟩
  · simp [toggleDone, hnonneg, hnat, hget]
  · intro k hk
    exact List.getElem?_set_ne (Ne.symm hk)
  · have hback : s.todos.set j t = s.todos := by
      apply List.ext_getElem? 
      intro k
      by_cases hk : j = k
      · subst hk; simp [hlt, hget]
      · simp [List.getElem?_set_ne hk]
    simp [toggleDone, hnonneg, hnat, hget, hlt, List.set_set, hback]

end Collections

/-! ## Encoding and decoding -/

section Codec

variable {Time : Type} (tl : TimeLib Time)

theorem encodeElems_ok {α : Type} (ty : JsonType α) (xs : List α)
    (h : ∀ x ∈ xs, ∃ v, ty.encode x = .ok v) : ∃ vs, encodeElems ty xs = .ok vs := by
  induction xs with
  | nil => exact ⟨[], rfl⟩
  | cons x rest ih =>
    obtain ⟨v, hv⟩ := h x (List.mem_cons_self x rest)
    obtain ⟨vs, hvs⟩ := ih (fun y hy => h y (List.mem_cons_of_mem x hy))
    exact ⟨v :: vs, by simp [encodeElems, hv, hvs]⟩

theorem decodeElems_encodeElems {α : Type} (ty : JsonType α) (R : α → α → Prop)
    (hty : ∀ x v, ty.encode x = .ok v →
      ∀ old, (ty.decode v old).failed = false ∧ R x (ty.decode v old).val)
    (xs : List α) (vs : List JVal) (h : encodeElems ty xs = .ok vs)
    (stored old : List α) (saved : Bool) :
    ∃ ys, (decodeElems ty vs stored old saved).1 = stored ++ ys ∧ List.Forall₂ R xs ys := by
  induction xs generalizing vs stored old saved with
  | nil =>
    simp only [encodeElems] at h
    cases h
    exact ⟨[], by simp [decodeElems], List.Forall₂.nil⟩
  | cons x rest ih =>
    simp only [encodeElems] at h
    cases hx : ty.encode x with
    | error e => rw [hx] at h; cases h
    | ok v =>
      rw [hx] at h
      cases hr : encodeElems ty rest with
      | error e => rw [hr] at h; cases h
      | ok ws =>
        rw [hr] at h
        cases h
        obtain ⟨hf, hR⟩ := hty x v hx (old.headD ty.zero)
        obtain ⟨ys, hys, hall⟩ := ih ws hr (stored ++ [(ty.decode v (old.headD ty.zero)).val])
          old.tail (saved || (ty.decode v (old.headD ty.zero)).saved)
        refine ⟨(ty.decode v (old.headD ty.zero)).val :: ys, ?_, List.Forall₂.cons hR hall⟩
        simp only [decodeElems, hf]
        simpa using hys

theorem unmarshal_marshalIndent {α : Type} (ty : JsonType α) (R : α → α → Prop)
    (hty : ∀ x v, ty.encode x = .ok v →
      ∀ old, (ty.decode v old).failed = false ∧ R x (ty.decode v old).val)
    (xs : List α) (file : FileData) (h : marshalIndent ty xs = .ok file) (data : List α) :
    List.Forall₂ R xs (unmarshal ty file data).1 := by
  unfold marshalIndent at h
  cases hr : encodeElems ty xs with
  | error e => rw [hr] at h; cases h
  | ok vs =>
    rw [hr] at h
    cases h
    obtain ⟨ys, hys, hall⟩ := decodeElems_encodeElems ty R hty xs vs hr [] data false
    simp only [unmarshal]
    rw [hys]
    simpa using hall

theorem note_decode_encode (hrt : tl.RoundTrips) (n : Note Time) (v : JVal)
    (h : (noteType tl).encode n = .ok v) (old : Note Time) :
    ((noteType tl).decode v old).failed = false ∧
      Note.SameSaved tl n ((noteType tl).decode v old).val := by
  simp only [noteType, Note.encode] at h
  cases hm : tl.marshalJSON n.createdAt with
  | error e => rw [hm] at h; cases h
  | ok text =>
    rw [hm] at h
    cases h
    obtain ⟨h1, h2⟩ := hrt _ _ hm old.createdAt
    have m1 : fieldMatches "content" "content" = true := by decide
    have m2 : fieldMatches "content" "created_at" = false := by decide
    have m3 : fieldMatches "created_at" "created_at" = true := by decide
    simp [noteType, decodeStruct, decodeMembers, Note.decodeMember, decodeString, decodeTime,
      m1, m2, m3, h1, h2, Note.SameSaved, hm]

theorem todo_decode_encode (hrt : tl.RoundTrips) (t : Todo Time) (v : JVal)
    (h : (todoType tl).encode t = .ok v) (old : Todo Time) :
    ((todoType tl).decode v old).failed = false ∧
      Todo.SameSaved tl t ((todoType tl).decode v old).val := by
  simp only [todoType, Todo.encode] at h
  cases hm : tl.marshalJSON t.createdAt with
  | error e => rw [hm] at h; cases h
  | ok text =>
    rw [hm] at h
    cases h
    obtain ⟨h1, h2⟩ := hrt _ _ hm old.createdAt
    have m1 : fieldMatches "task" "task" = true := by decide
    have m2 : fieldMatches "task" "done" = false := by decide
    have m3 : fieldMatches "done" "done" = true := by decide
    have m4 : fieldMatches "task" "created_at" = false := by decide
    have m5 : fieldMatches "done" "created_at" = false := by decide
    have m6 : fieldMatches "created_at" "created_at" = true := by decide
    simp [todoType, decodeStruct, decodeMembers, Todo.decodeMember, decodeString, decodeBool,
      decodeTime, m1, m2, m3, m4, m5, m6, h1, h2, Todo.SameSaved, hm]

theorem notes_encodable (xs : List (Note Time))
    (h : ∀ n ∈ xs, ∃ text, tl.marshalJSON n.createdAt = .ok text) :
    ∃ file, marshalIndent (noteType tl) xs = .ok file := by
  obtain ⟨vs, hvs⟩ := encodeElems_ok (noteType tl) xs (fun n hn => by
    obtain ⟨text, ht⟩ := h n hn
    exact ⟨.obj [("content", .str n.content), ("created_at", .str text)], by
      simp [noteType, Note.encode, ht]⟩)
  exact ⟨.json (.arr vs), by simp [marshalIndent, hvs]⟩

theorem todos_encodable (xs : List (Todo Time))
    (h : ∀ t ∈ xs, ∃ text, tl.marshalJSON t.createdAt = .ok text) :
    ∃ file, marshalIndent (todoType tl) xs = .ok file := by
  obtain ⟨vs, hvs⟩ := encodeElems_ok (todoType tl) xs (fun t ht => by
    obtain ⟨text, hx⟩ := h t ht
    exact ⟨.obj [("task", .str t.task), ("done", .bool t.done), ("created_at", .str text)], by
      simp [todoType, Todo.encode, hx]⟩)
  exact ⟨.json (.arr vs), by simp [marshalIndent, hvs]⟩

end Codec

/-! ## Files -/

section Files

variable {Time : Type} (tl : TimeLib Time)

theorem noteFile_ne_todoFile : noteFile ≠ todoFile := by decide

theorem saveToFile_locked {α : Type} (ty : JsonType α) (d : Disk) (name : String)
    (xs : List α) : (saveToFile ty d name xs).locked = d.locked := by
  unfold saveToFile writeFile
  split
  · rfl
  · split <;> rfl

theorem saveToFile_same {α : Type} (ty : JsonType α) (d : Disk) (name : String)
    (xs : List α) (file : FileData) (hm : marshalIndent ty xs = .ok file)
    (hw : d.locked name = false) : readFile (saveToFile ty d name xs) name = some file := by
  simp [saveToFile, writeFile, readFile, hm, hw]

theorem saveToFile_other {α : Type} (ty : JsonType α) (d : Disk) (name other : String)
    (xs : List α) (hne : other ≠ name) :
    readFile (saveToFile ty d name xs) other = readFile d other := by
  unfold saveToFile writeFile readFile
  split
  · rfl
  · split
    · rfl
    · simp [Function.update, hne]

theorem saveData_flushed (s : State Time)
    (hn : ∀ n ∈ s.notes, ∃ text, tl.marshalJSON n.createdAt = .ok text)
    (ht : ∀ t ∈ s.todos, ∃ text, tl.marshalJSON t.createdAt = .ok text)
    (hwn : s.disk.locked noteFile = false) (hwt : s.disk.locked todoFile = false) :
    Flushed tl (saveData tl s) := by
  obtain ⟨fn, hfn⟩ := notes_encodable tl s.notes hn
  obtain ⟨ft, hft⟩ := todos_encodable tl s.todos ht
  refine ⟨⟨fn, hfn, ?_⟩, ⟨ft, hft, ?_⟩⟩
  · show readFile (saveToFile (todoType tl) (saveToFile (noteType tl) s.disk noteFile s.notes)
      todoFile s.todos) noteFile = some fn
    rw [saveToFile_other _ _ _ _ _ noteFile_ne_todoFile]
    exact saveToFile_same _ _ _ _ _ hfn hwn
  · show readFile (saveToFile (todoType tl) (saveToFile (noteType tl) s.disk noteFile s.notes)
      todoFile s.todos) todoFile = some ft
    apply saveToFile_same _ _ _ _ _ hft
    rw [saveToFile_locked]
    exact hwt

theorem start_of_flushed (hrt : tl.RoundTrips) (s : State Time) (h : Flushed tl s) :
    List.Forall₂ (Note.SameSaved tl) s.notes (start tl s.disk).notes ∧
    List.Forall₂ (Todo.SameSaved tl) s.todos (start tl s.disk).todos := by
  obtain ⟨⟨fn, hfn, hrn⟩, ⟨ft, hft, hrt2⟩⟩ := h
  constructor
  · have := unmarshal_marshalIndent (noteType tl) (Note.SameSaved tl)
      (note_decode_encode tl hrt) s.notes fn hfn []
    simpa [start, loadData, fresh, loadFromFile, hrn] using this
  · have := unmarshal_marshalIndent (todoType tl) (Todo.SameSaved tl)
      (todo_decode_encode tl hrt) s.todos ft hft []
    simpa [start, loadData, fresh, loadFromFile, hrt2] using this

theorem loadFromFile_empty {α : Type} (ty : JsonType α) (d : Disk) (name : String)
    (h : EmptyFile d name) : loadFromFile ty d name [] = [] := by
  rcases h with h | h <;> simp [loadFromFile, readFile, h, unmarshal]

end Files

/-! ## Persistence -/

section Persistence

variable {Time : Type} (tl : TimeLib Time)

/-- C4. Provided the time library reads back what it writes, every timestamp in
memory can be written and both files can be written: after `saveData`, `loadData`
in a fresh instance yields collections of the same length and order whose elements
have the same content or task, the same done flag, and timestamps written alike.
From empty files, typing "buy milk" and pressing "Add Note" (which saves), then
loading in a fresh instance, yields exactly one note, with content "buy milk". -/
theorem persistence_round_trip (hrt : tl.RoundTrips) :
    (∀ s : State Time, Writable tl s → Unlocked s.disk →
      List.Forall₂ (Note.SameSaved tl) s.notes (start tl (saveData tl s).disk).notes ∧
      List.Forall₂ (Todo.SameSaved tl) s.todos (start tl (saveData tl s).disk).todos ∧
      (start tl (saveData tl s).disk).notes.length = s.notes.length ∧
      (start tl (saveData tl s).disk).todos.length = s.todos.length) ∧
    (∀ (d : Disk) (now : Time) (text : String),
      EmptyFile d noteFile → EmptyFile d todoFile → Unlocked d →
      tl.marshalJSON now = .ok text →
      ∃ s1 n, run tl [.typeNote "buy milk", .addNote now] (start tl d) = some s1 ∧
        (start tl s1.disk).notes = [n] ∧ n.content = "buy milk") := by
  have general : ∀ s : State Time, Writable tl s → Unlocked s.disk →
      List.Forall₂ (Note.SameSaved tl) s.notes (start tl (saveData tl s).disk).notes ∧
      List.Forall₂ (Todo.SameSaved tl) s.todos (start tl (saveData tl s).disk).todos := by
    intro s hw hu
    exact start_of_flushed tl hrt (saveData tl s) (saveData_flushed tl s hw.1 hw.2 hu.1 hu.2)
  refine ⟨fun s hw hu => ?_, ?_⟩
  · obtain ⟨h1, h2⟩ := general s hw hu
    exact ⟨h1, h2, h1.length_eq.symm, h2.length_eq.symm⟩
  · intro d now text hen het hu hnow
    have hnotes : (start tl d).notes = [] := loadFromFile_empty (noteType tl) d noteFile hen
    have htodos : (start tl d).todos = [] := loadFromFile_empty (todoType tl) d todoFile het
    have hne : ("buy milk" : String) ≠ "" := by decide
    let s0 : State Time :=
      { start tl d with noteInput := "", notes := (start tl d).notes ++ [⟨"buy milk", now⟩] }
    have hw : Writable tl s0 := by
      constructor
      · intro n hn
        have : n = ⟨"buy milk", now⟩ := by simpa [s0, hnotes] using hn
        exact ⟨text, by rw [this]; exact hnow⟩
      · intro t ht
        have : t ∈ (start tl d).todos := ht
        rw [htodos] at this
        cases this
    obtain ⟨h1, _⟩ := general s0 hw hu
    have hs0 : s0.notes = [⟨"buy milk", now⟩] := by simp [s0, hnotes]
    rw [hs0] at h1
    obtain ⟨n, rest, hhead, htail, hlist⟩ := List.forall₂_cons_left_iff.mp h1
    rw [List.forall₂_nil_left_iff.mp htail] at hlist
    refine ⟨saveData tl s0, n, ?_, hlist, hhead.1⟩
    simp [run, step, addNote, hne, s0]

/-- C7 (amended). A file that cannot be read, is not valid JSON, or holds a JSON
value other than an array leaves its collection empty after `loadData` in a fresh
instance; `loadData` always returns; and the notes depend on the notes file alone,
the todos on the todos file alone. -/
theorem load_failure_is_empty :
    (∀ d : Disk, Unusable d noteFile → (start tl d).notes = []) ∧
    (∀ d : Disk, Unusable d todoFile → (start tl d).todos = []) ∧
    (∀ d d1 : Disk, d1.files noteFile = d.files noteFile →
      (start tl d1).notes = (start tl d).notes) ∧
    (∀ d d1 : Disk, d1.files todoFile = d.files todoFile →
      (start tl d1).todos = (start tl d).todos) := by
  refine ⟨?_, ?_, ?_, ?_⟩
  · intro d h
    show loadFromFile (noteType tl) d noteFile [] = []
    rcases h with h | ⟨raw, h⟩ | ⟨v, h, harr⟩
    · simp [loadFromFile, readFile, h]
    · simp [loadFromFile, readFile, h, unmarshal]
    · cases v with
      | arr elems => exact absurd rfl (harr elems)
      | null => simp [loadFromFile, readFile, h, unmarshal]
      | bool b => simp [loadFromFile, readFile, h, unmarshal]
      | num lit => simp [loadFromFile, readFile, h, unmarshal]
      | str t => simp [loadFromFile, readFile, h, unmarshal]
      | obj members => simp [loadFromFile, readFile, h, unmarshal]
  · intro d h
    show loadFromFile (todoType tl) d todoFile [] = []
    rcases h with h | ⟨raw, h⟩ | ⟨v, h, harr⟩
    · simp [loadFromFile, readFile, h]
    · simp [loadFromFile, readFile, h, unmarshal]
    · cases v with
      | arr elems => exact absurd rfl (harr elems)
      | null => simp [loadFromFile, readFile, h, unmarshal]
      | bool b => simp [loadFromFile, readFile, h, unmarshal]
      | num lit => simp [loadFromFile, readFile, h, unmarshal]
      | str t => simp [loadFromFile, readFile, h, unmarshal]
      | obj members => simp [loadFromFile, readFile, h, unmarshal]
  · intro d d1 h
    show loadFromFile (noteType tl) d1 noteFile [] = loadFromFile (noteType tl) d noteFile []
    simp [loadFromFile, readFile, h]
  · intro d d1 h
    show loadFromFile (todoType tl) d1 todoFile [] = loadFromFile (todoType tl) d todoFile []
    simp [loadFromFile, readFile, h]

/-- Every action other than "Edit Note" that changes a collection leaves both
files holding the serialization of the collections, when the files and the
timestamps can be written. -/
theorem step_flushed (a : Action Time) (s s1 : State Time) (ha : a ≠ .editNote)
    (hs : step tl a s = some s1) (hch : s1.notes ≠ s.notes ∨ s1.todos ≠ s.todos)
    (hw : Writable tl s1) (hu : Unlocked s.disk) : Flushed tl s1 := by
  have key : ∀ s2 : State Time, s1 = saveData tl s2 → s2.disk = s.disk → Flushed tl s1 := by
    intro s2 he hd
    subst he
    exact saveData_flushed tl s2 hw.1 hw.2 (hd ▸ hu.1) (hd ▸ hu.2)
  cases a <;> simp only [step, addNote, deleteNote, clearNotes, addTodo, toggleDone,
    deleteTodo, clearTodos, selectNote, selectTodo] at hs
  case editNote => exact absurd rfl ha
  case addNote now =>
    split at hs
    · exact key _ (Option.some.inj hs).symm rfl
    · cases hs; simp at hch
  case deleteNote =>
    split at hs
    · split at hs
      · cases hs
      · exact key _ (Option.some.inj hs).symm rfl
    · cases hs; simp at hch
  case clearNotes => exact key _ (Option.some.inj hs).symm rfl
  case addTodo now =>
    split at hs
    · exact key _ (Option.some.inj hs).symm rfl
    · cases hs; simp at hch
  case toggleDone =>
    split at hs
    · split at hs
      · cases hs
      · exact key _ (Option.some.inj hs).symm rfl
    · cases hs; simp at hch
  case deleteTodo =>
    split at hs
    · split at hs
      · cases hs
      · exact key _ (Option.some.inj hs).symm rfl
    · cases hs; simp at hch
  case clearTodos => exact key _ (Option.some.inj hs).symm rfl
  case selectNote id => cases hs; simp at hch
  case selectTodo id => cases hs; simp at hch
  case typeNote text => cases hs; simp at hch
  case typeTodo text => cases hs; simp at hch
  case keyS => exact key _ (Option.some.inj hs).symm rfl

/-- Every action other than the two "Clear" buttons keeps a valid selection valid. -/
theorem step_selectionValid (a : Action Time) (s s1 : State Time)
    (hn : a ≠ .clearNotes) (ht : a ≠ .clearTodos) (ho : Offered a s)
    (hv : SelectionValid s) (hs : step tl a s = some s1) : SelectionValid s1 := by
  obtain ⟨hvn, hvt⟩ := hv
  cases a <;> simp only [step, addNote, editNote, deleteNote, clearNotes, addTodo, toggleDone,
    deleteTodo, clearTodos, selectNote, selectTodo] at hs
  case clearNotes => exact absurd rfl hn
  case clearTodos => exact absurd rfl ht
  case addNote now =>
    split at hs
    · cases hs
      refine ⟨fun h => ?_, hvt⟩
      have := hvn h
      simp only [saveData_notes, saveData_currentNote, List.length_append, List.length_singleton]
      omega
    · cases hs; exact ⟨hvn, hvt⟩
  case editNote =>
    split at hs
    · split at hs
      · cases hs
      · split at hs
        · cases hs
        · cases hs
          exact ⟨fun h => absurd h (show ¬ (0 : Int) ≤ -1 by decide), hvt⟩
    · cases hs; exact ⟨hvn, hvt⟩
  case deleteNote =>
    split at hs
    · split at hs
      · cases hs
      · cases hs
        exact ⟨fun h => absurd h (show ¬ (0 : Int) ≤ -1 by decide), hvt⟩
    · cases hs; exact ⟨hvn, hvt⟩
  case addTodo now =>
    split at hs
    · cases hs
      refine ⟨hvn, fun h => ?_⟩
      have := hvt h
      simp only [saveData_todos, saveData_currentTodo, List.length_append, List.length_singleton]
      omega
    · cases hs; exact ⟨hvn, hvt⟩
  case toggleDone =>
    split at hs
    · split at hs
      · cases hs
      · cases hs
        refine ⟨hvn, fun h => ?_⟩
        have := hvt h
        simpa using this
    · cases hs; exact ⟨hvn, hvt⟩
  case deleteTodo =>
    split at hs
    · split at hs
      · cases hs
      · cases hs
        exact ⟨hvn, fun h => absurd h (show ¬ (0 : Int) ≤ -1 by decide)⟩
    · cases hs; exact ⟨hvn, hvt⟩
  case selectNote id =>
    cases hs
    exact ⟨fun _ => ho.2, fun h => absurd h (show ¬ (0 : Int) ≤ -1 by decide)⟩
  case selectTodo id =>
    cases hs
    exact ⟨fun h => absurd h (show ¬ (0 : Int) ≤ -1 by decide), fun _ => ho.2⟩
  case typeNote text => cases hs; exact ⟨hvn, hvt⟩
  case typeTodo text => cases hs; exact ⟨hvn, hvt⟩
  case keyS => cases hs; exact ⟨hvn, hvt⟩

end Persistence

/-! ## Evaluation on concrete sessions -/

section Sessions

/-- The text instance reads back what it writes. -/
theorem textTime_roundTrips : textTime.RoundTrips := by
  intro t text h old
  cases h
  exact ⟨rfl, rfl⟩

/-- Every timestamp of the sample session can be written. -/
theorem sample_writable : Writable textTime sample :=
  ⟨fun n _ => ⟨n.createdAt, rfl⟩, fun t _ => ⟨t.createdAt, rfl⟩⟩

/-- C1 (failing input). A note is added and selected, then "Clear Notes" is
pressed: the notes are empty and `currentNote` is still `0`, so the selection is
not valid, and "Edit Note" and "Delete Note" panic on the index. The same happens
with a todo, "Clear Todos", "Toggle Done" and "Delete Todo". -/
theorem clear_keeps_selection :
    run textTime addOne (start textTime emptyDisk) = some afterAdd ∧
    Offered (.selectNote 0) afterAdd ∧
    run textTime [.selectNote 0, .clearNotes] afterAdd = some afterClear ∧
    afterClear.currentNote = 0 ∧ afterClear.notes.length = 0 ∧
    ¬ SelectionValid afterClear ∧
    (step textTime .editNote afterClear).isNone = true ∧
    (step textTime .deleteNote afterClear).isNone = true ∧
    run textTime addOneTodo (start textTime emptyDisk) = some afterAddTodo ∧
    Offered (.selectTodo 0) afterAddTodo ∧
    run textTime [.selectTodo 0, .clearTodos] afterAddTodo = some afterClearTodos ∧
    afterClearTodos.currentTodo = 0 ∧ afterClearTodos.todos.length = 0 ∧
    ¬ SelectionValid afterClearTodos ∧
    (step textTime .toggleDone afterClearTodos).isNone = true ∧
    (step textTime .deleteTodo afterClearTodos).isNone = true := by
  refine ⟨rfl, ⟨by decide, by decide⟩, rfl, rfl, rfl, ?_, rfl, rfl, rfl, ⟨by decide, by decide⟩,
    rfl, rfl, rfl, ?_, rfl, rfl⟩
  · intro h
    exact absurd (h.1 (by decide)) (by decide)
  · intro h
    exact absurd (h.2 (by decide)) (by decide)

/-- C2 (failing input). A note is added and selected; both files hold the
collections. "Edit Note" then empties the notes in memory and leaves the notes
file as it was, so the file no longer holds the serialization of the notes. -/
theorem editNote_skips_save :
    run textTime addAndSelect (start textTime emptyDisk) = some afterSelect ∧
    Flushed textTime afterSelect ∧
    afterSelect.notes = [⟨"buy milk", morning⟩] ∧
    ∃ s1, step textTime .editNote afterSelect = some s1 ∧ s1.notes = [] ∧
      readFile s1.disk noteFile = readFile afterSelect.disk noteFile ∧
      ¬ Flushed textTime s1 := by
  refine ⟨rfl, ⟨⟨_, rfl, rfl⟩, ⟨_, rfl, rfl⟩⟩, rfl, _, rfl, rfl, rfl, ?_⟩
  rintro ⟨⟨f, hf, hr⟩, _⟩
  have hf1 : f = .json (.arr []) := by
    have hf0 : (Except.ok (.json (.arr [])) : Except String FileData) = .ok f := hf
    exact (Except.ok.inj hf0).symm
  subst hf1
  have hfile : readFile afterSelect.disk noteFile
      = some (.json (.arr [.obj [("content", .str "buy milk"), ("created_at", .str morning)]])) :=
    rfl
  have hr1 : readFile afterSelect.disk noteFile = some (.json (.arr [])) := hr
  rw [hfile] at hr1
  simp at hr1

/-- C3 (counterexample). The text of one space is blank, yet "Add Note" and
"Add Todo" append it: the collections, empty before, are not unchanged. -/
theorem add_accepts_blank :
    (" " : String).data.all Char.isWhitespace = true ∧
    (start textTime emptyDisk).notes = [] ∧ (start textTime emptyDisk).todos = [] ∧
    (run textTime [.typeNote " ", .addNote morning] (start textTime emptyDisk)).map
      (fun r => r.notes) = some [⟨" ", morning⟩] ∧
    (run textTime [.typeTodo " ", .addTodo morning] (start textTime emptyDisk)).map
      (fun r => r.todos) = some [⟨" ", false, morning⟩] ∧
    (run textTime [.typeNote " ", .addNote morning] (start textTime emptyDisk)).map
      (fun r => r.notes) ≠ some (start textTime emptyDisk).notes := by
  refine ⟨by decide, rfl, rfl, rfl, rfl, by decide⟩

/-- C7 (counterexample). The notes file holds an array of one object with the
number 5 under the key content, for which `json.Unmarshal` returns an error; after
`loadData` in a fresh instance the notes hold one entry, with the zero values, and
not none. -/
theorem ill_typed_array_is_loaded :
    (unmarshal (noteType textTime) illTypedNotes []).2 = true ∧
    (start textTime (diskWithNotes illTypedNotes)).notes = [⟨"", textTime.zero⟩] ∧
    (start textTime (diskWithNotes illTypedNotes)).notes.length ≠ 0 := by
  refine ⟨by decide, by decide, by decide⟩

/-- Instance of C4: the sample session saved and reloaded, and the buy-milk scenario in a directory without files. -/
theorem persistence_round_trip_witness :
    (textTime.RoundTrips ∧ Writable textTime sample ∧ Unlocked sample.disk) ∧
    (List.Forall₂ (Note.SameSaved textTime) sample.notes
        (start textTime (saveData textTime sample).disk).notes ∧
      List.Forall₂ (Todo.SameSaved textTime) sample.todos
        (start textTime (saveData textTime sample).disk).todos ∧
      (start textTime (saveData textTime sample).disk).notes.length = sample.notes.length ∧
      (start textTime (saveData textTime sample).disk).todos.length = sample.todos.length) ∧
    (EmptyFile emptyDisk noteFile ∧ EmptyFile emptyDisk todoFile ∧ Unlocked emptyDisk ∧
      textTime.marshalJSON morning = .ok morning) ∧
    (∃ s1 n, run textTime [.typeNote "buy milk", .addNote morning] (start textTime emptyDisk)
        = some s1 ∧ (start textTime s1.disk).notes = [n] ∧ n.content = "buy milk") :=
  ⟨⟨textTime_roundTrips, sample_writable, ⟨rfl, rfl⟩⟩,
    (persistence_round_trip textTime textTime_roundTrips).1 sample sample_writable ⟨rfl, rfl⟩,
    ⟨Or.inl rfl, Or.inl rfl, ⟨rfl, rfl⟩, rfl⟩,
    (persistence_round_trip textTime textTime_roundTrips).2 emptyDisk morning morning
      (Or.inl rfl) (Or.inl rfl) ⟨rfl, rfl⟩ rfl⟩

/-- Instance of C5: a note added and selected from a start without files. -/
theorem selection_exclusive_witness :
    ((start textTime emptyDisk).currentNote = -1 ∧ (start textTime emptyDisk).currentTodo = -1 ∧
      run textTime addAndSelect (start textTime emptyDisk) = some afterSelect) ∧
    ¬ (0 ≤ afterSelect.currentNote ∧ 0 ≤ afterSelect.currentTodo) :=
  ⟨⟨rfl, rfl, rfl⟩,
    (selection_exclusive textTime addAndSelect (start textTime emptyDisk) afterSelect
      rfl rfl rfl).1⟩

/-- Instance of C8: the note added and selected is edited; without a selection nothing changes. -/
theorem editNote_transition_witness :
    ((start textTime emptyDisk).currentNote = -1 ∧ (start textTime emptyDisk).currentTodo = -1 ∧
      run textTime addAndSelect (start textTime emptyDisk) = some afterSelect ∧
      afterSelect.currentNote = (0 : Nat) ∧ afterSelect.notes[0]? = some ⟨"buy milk", morning⟩) ∧
    (editNote afterSelect).map
        (fun r => (r.noteInput, r.notes, r.todos, r.currentNote, r.currentTodo))
      = some ("buy milk", [], [], -1, -1) ∧
    (sample.currentNote < 0 ∧ editNote sample = some sample) :=
  ⟨⟨rfl, rfl, rfl, rfl, rfl⟩,
    (editNote_transition textTime).1 addAndSelect (start textTime emptyDisk) afterSelect 0
      ⟨"buy milk", morning⟩ rfl rfl rfl rfl rfl,
    ⟨by decide, (editNote_transition textTime).2 sample (by decide)⟩⟩

/-- Instance of C6: the second note, the second todo of the sample session, and the two-todo scenario. -/
theorem delete_removes_selected_witness :
    (sampleNote.currentNote = (1 : Nat) ∧ 1 < sampleNote.notes.length) ∧
    (∃ s1, deleteNote textTime sampleNote = some s1 ∧
      s1.notes.length = sampleNote.notes.length - 1 ∧
      s1.notes[0]? = sampleNote.notes[0]? ∧ s1.notes[1]? = sampleNote.notes[2]?) ∧
    (sample.currentTodo = (1 : Nat) ∧ 1 < sample.todos.length) ∧
    (∃ s1, deleteTodo textTime sample = some s1 ∧
      s1.todos.length = sample.todos.length - 1 ∧
      s1.todos[0]? = sample.todos[0]? ∧ s1.todos[1]? = sample.todos[2]?) ∧
    ((start textTime emptyDisk).todos = [] ∧ "water plants" ≠ "" ∧ "pay rent" ≠ "") ∧
    (run textTime [.typeTodo "water plants", .addTodo morning, .typeTodo "pay rent",
        .addTodo evening, .selectTodo 0, .toggleDone, .selectTodo 1, .deleteTodo]
        (start textTime emptyDisk)).map (fun r => r.todos)
      = some [⟨"water plants", true, morning⟩] :=
  ⟨⟨rfl, by decide⟩,
    (let ⟨s1, h1, h2, h3, h4⟩ :=
      (delete_removes_selected textTime).1 sampleNote 1 rfl (by decide)
     ⟨s1, h1, h2, h3 0 (by decide), h4 1 (by decide)⟩),
    ⟨rfl, by decide⟩,
    (let ⟨s1, h1, h2, h3, h4⟩ :=
      (delete_removes_selected textTime).2.1 sample 1 rfl (by decide)
     ⟨s1, h1, h2, h3 0 (by decide), h4 1 (by decide)⟩),
    ⟨rfl, by decide, by decide⟩,
    (delete_removes_selected textTime).2.2 (start textTime emptyDisk) "water plants" "pay rent"
      morning evening rfl (by decide) (by decide)⟩

/-- Instance of C9: a session with text in the note entry only, and one with text
in the todo entry only. -/
theorem add_then_remove_witness :
    (noteTyped.noteInput ≠ "" ∧ noteTyped.todoInput = "") ∧
    ((addNote textTime evening noteTyped).map (fun r => r.notes)
        = some (noteTyped.notes ++ [⟨noteTyped.noteInput, evening⟩]) ∧
      (run textTime [.addNote evening, .selectNote noteTyped.notes.length, .deleteNote]
        noteTyped).map (fun r => r.notes) = some noteTyped.notes) ∧
    (todoTyped.todoInput ≠ "" ∧ todoTyped.noteInput = "") ∧
    ((addTodo textTime evening todoTyped).map (fun r => r.todos)
        = some (todoTyped.todos ++ [⟨todoTyped.todoInput, false, evening⟩]) ∧
      (run textTime [.addTodo evening, .selectTodo todoTyped.todos.length, .deleteTodo]
        todoTyped).map (fun r => r.todos) = some todoTyped.todos) :=
  ⟨⟨by decide, rfl⟩, (add_then_remove textTime).1 evening noteTyped (by decide),
    ⟨by decide, rfl⟩, (add_then_remove textTime).2 evening todoTyped (by decide)⟩

/-- Instance of C10: the selected second todo of the sample session. -/
theorem toggle_involution_witness :
    (sample.currentTodo = (1 : Nat) ∧ sample.todos[1]? = some ⟨"pay rent", true, evening⟩) ∧
    (toggleDone textTime sample).map (fun r => (r.todos, r.notes, r.currentNote, r.currentTodo))
      = some ([⟨"water plants", false, morning⟩, ⟨"pay rent", false, evening⟩], sample.notes,
          -1, 1) ∧
    ((toggleDone textTime sample).bind (toggleDone textTime)).map (fun r => r.todos)
      = some sample.todos :=
  ⟨⟨rfl, rfl⟩,
    (toggle_involution textTime sample 1 ⟨"pay rent", true, evening⟩ rfl rfl).1,
    (toggle_involution textTime sample 1 ⟨"pay rent", true, evening⟩ rfl rfl).2.2⟩

/-- Instance of C7: a missing notes file, a notes file that is not JSON, a missing todos file. -/
theorem load_failure_is_empty_witness :
    (Unusable emptyDisk noteFile ∧ (start textTime emptyDisk).notes = []) ∧
    (Unusable (diskWithNotes (.invalid "not json")) noteFile ∧
      (start textTime (diskWithNotes (.invalid "not json"))).notes = []) ∧
    (Unusable (diskWithNotes illTypedNotes) todoFile ∧
      (start textTime (diskWithNotes illTypedNotes)).todos = []) :=
  ⟨⟨Or.inl rfl, (load_failure_is_empty textTime).1 emptyDisk (Or.inl rfl)⟩,
    ⟨Or.inr (Or.inl ⟨"not json", rfl⟩),
      (load_failure_is_empty textTime).1 (diskWithNotes (.invalid "not json"))
        (Or.inr (Or.inl ⟨"not json", rfl⟩))⟩,
    ⟨Or.inl rfl, (load_failure_is_empty textTime).2.1 (diskWithNotes illTypedNotes) (Or.inl rfl)⟩⟩

end Sessions

end NotesApp
